import Mathlib

/-!
Verification development for the hacluster interface library.

The Python sources are shallowly embedded:

* Python dicts (which preserve insertion order and update keys in place)
  become association lists over `String` with `dictGet` / `dictSet`.
* The `CRM` dict subclass of `common.py` becomes a record whose fields are
  its fixed keys, in the insertion order of `CRM.__init__`.
* Values that may be a string or an iterable of strings (the `params`,
  `meta`, `utilization`, `operations`, `op` kwargs) become `StrOrList`.
* A Python call that raises becomes `Except PyError`; applying the
  percent operator to a format string holding no conversion specifier
  raises `TypeError` for every non-mapping right operand, which is
  modelled by `PyError.typeError`.
-/

set_option autoImplicit false

/-- Errors a modelled Python call can raise. -/
inductive PyError where
  | typeError
  | valueError
deriving Repr, DecidableEq

/-- Lookup in an insertion-ordered dict: first entry with the key. -/
def dictGet {α : Type} (d : List (String × α)) (k : String) : Option α :=
  match d with
  | [] => none
  | p :: rest => if p.1 = k then some p.2 else dictGet rest k

/-- Assignment `d[k] = v` on an insertion-ordered dict: replace the value
in place if the key is present, otherwise append the pair at the end. -/
def dictSet {α : Type} (d : List (String × α)) (k : String) (v : α) : List (String × α) :=
  match d with
  | [] => [(k, v)]
  | p :: rest => if p.1 = k then (k, v) :: rest else p :: dictSet rest k v

/-- Sequence of assignments, one per pair, left to right. -/
def dictSetMany {α : Type} (d : List (String × α)) (ps : List (String × α)) : List (String × α) :=
  ps.foldl (fun acc p => dictSet acc p.1 p.2) d

/-- A kwarg value that Python accepts either as one string or as an
iterable of strings (`common.CRM._parse` distinguishes the two with
`isinstance(data, string_types)`). -/
inductive StrOrList where
  | str (s : String)
  | list (l : List String)
deriving Repr, DecidableEq

/-- Python truthiness of such a value: empty string and empty list are falsy. -/
def StrOrList.truthy : StrOrList → Bool
  | .str s => s ≠ ""
  | .list l => l ≠ []

/-- The configuration dict built by `common.CRM.__init__` (src/common.py,
lines 44-55).  Fields appear in the insertion order of `__init__`.  The
source in src/common.py has no `systemd_services` key and no
`add_delete_resource` or `systemd_services` method, although the
repository test suite exercises both. -/
structure CRM where
  resources : List (String × String)
  delete_resources : List String
  resource_params : List (String × String)
  groups : List (String × String)
  ms : List (String × String)
  orders : List (String × String)
  colocations : List (String × String)
  clones : List (String × String)
  locations : List (String × String)
  init_services : List String
deriving Repr, DecidableEq

/-- The state `CRM()` is created in. -/
def CRM.empty : CRM :=
  { resources := [], delete_resources := [], resource_params := [], groups := [],
    ms := [], orders := [], colocations := [], clones := [], locations := [],
    init_services := [] }

/-- Loop body of `common.CRM._parse` (src/common.py, lines 131-143): a
single space is appended before the first item only, and every item
then contributes `prefix + " " + item` with no further separator. -/
def parseLoop (pfx : String) : List String → Bool → String → String
  | [], _, acc => acc
  | d :: rest, first, acc =>
      parseLoop pfx rest false ((if first then acc ++ " " else acc) ++ pfx ++ " " ++ d)

/-- `common.CRM._parse` (src/common.py, lines 131-143).  A single string
is wrapped into a one-element list before the loop runs. -/
def CRM.parse (pfx : String) (data : StrOrList) : String :=
  let items := match data with
    | .str s => [s]
    | .list l => l
  parseLoop pfx items true ""

/-- Text a present kwarg contributes to a spec string: the source
percent-formats a space followed by the `_parse` output of the kwarg, so
each present clause is a space plus that output; an absent kwarg
contributes nothing. -/
def kwargClause (key : String) (v : Option StrOrList) : String :=
  match v with
  | some data => " " ++ CRM.parse key data
  | none => ""

/-- Text the `description` argument contributes in `primitive`: the
source guards with Python truthiness (`if description:`), so `None` and
the empty string contribute nothing. -/
def descClause (description : Option String) : String :=
  match description with
  | some d => if d = "" then "" else "description=\"" ++ d ++ "\""
  | none => ""

/-- `common.CRM.primitive` (src/common.py, lines 57-129): registers the
agent under `resources[name]`, then accumulates the spec string from the
`description` argument and the kwargs `params`, `meta`, `utilization`,
`operations`, `op` in that order, storing it under
`resource_params[name]` only when it is non-empty. -/
def CRM.primitive (crm : CRM) (name agent : String) (description : Option String)
    (params meta utilization operations op : Option StrOrList) : CRM :=
  let specs :=
    match description with
    | some d => if d = "" then "" else "description=\"" ++ d ++ "\""
    | none => ""
  let kwargs : List (String × Option StrOrList) :=
    [("params", params), ("meta", meta), ("utilization", utilization),
     ("operations", operations), ("op", op)]
  let specs := kwargs.foldl (fun acc kv =>
    match kv.2 with
    | some data => acc ++ " " ++ CRM.parse kv.1 data
    | none => acc) specs
  { crm with
      resources := dictSet crm.resources name agent,
      resource_params :=
        if specs = "" then crm.resource_params
        else dictSet crm.resource_params name specs }

/-- `common.CRM.clone` (src/common.py, lines 145-181): the spec starts
from the cloned resource, appends a `description` clause when truthy,
then `meta` and `params` clauses, each skipped when absent or falsy
(`if not value: continue`). -/
def CRM.clone (crm : CRM) (name resource : String) (description : Option String)
    (meta params : Option StrOrList) : CRM :=
  let clone_specs := resource
  let clone_specs :=
    match description with
    | some d => if d = "" then clone_specs else clone_specs ++ " description=\"" ++ d ++ "\""
    | none => clone_specs
  let kwargs : List (String × Option StrOrList) := [("meta", meta), ("params", params)]
  let clone_specs := kwargs.foldl (fun acc kv =>
    match kv.2 with
    | some data => if data.truthy then acc ++ " " ++ CRM.parse kv.1 data else acc
    | none => acc) clone_specs
  { crm with clones := dictSet crm.clones name clone_specs }

/-- Successful path of `common.CRM.group` (src/common.py, lines 242-285),
taken when no `description` kwarg is supplied: the members are joined by
single spaces and the `meta` and `params` clauses are appended with no
truthiness filter. -/
def CRM.groupPure (crm : CRM) (name : String) (resources : List String)
    (meta params : Option StrOrList) : CRM :=
  let specs := String.intercalate " " resources
  let kwargs : List (String × Option StrOrList) := [("meta", meta), ("params", params)]
  let specs := kwargs.foldl (fun acc kv =>
    match kv.2 with
    | some data => acc ++ " " ++ CRM.parse kv.1 data
    | none => acc) specs
  { crm with groups := dictSet crm.groups name specs }

/-- `common.CRM.group` (src/common.py, lines 242-285).  When the
`description` kwarg is present the source applies the percent operator
to a format text that holds no conversion specifier; that raises
`TypeError` for every non-mapping operand, in particular for every
string, before the
`groups` entry is assigned. -/
def CRM.group (crm : CRM) (name : String) (resources : List String)
    (description : Option String) (meta params : Option StrOrList) : Except PyError CRM :=
  match description with
  | some _ => Except.error PyError.typeError
  | none => Except.ok (CRM.groupPure crm name resources meta params)

/-- A scalar Python value as passed for the `symmetrical` kwarg of
`order`; none of these is a mapping, so applying a specifier-free format
string to one with the percent operator raises `TypeError`. -/
inductive PyScalar where
  | bool (b : Bool)
  | str (s : String)
  | int (n : Int)
  | pynone
deriving Repr, DecidableEq

/-- `common.CRM.order` (src/common.py, lines 408-466): a truthy `score`
contributes the score followed by a colon, then a space and the
space-joined resources follow; when the `symmetrical` kwarg is present
the source applies the percent operator to the specifier-free format
text of the symmetrical clause, which raises `TypeError` (the operand is
not a mapping) before the `orders` entry is assigned. -/
def CRM.order (crm : CRM) (name : String) (score : Option String)
    (resources : List String) (symmetrical : Option PyScalar) : Except PyError CRM :=
  let specs :=
    match score with
    | some s => if s = "" then "" else s ++ ":"
    | none => ""
  let specs := specs ++ " " ++ String.intercalate " " resources
  match symmetrical with
  | some _ => Except.error PyError.typeError
  | none => Except.ok { crm with orders := dictSet crm.orders name specs }

/-- `common.CRM.delete_resource` (src/common.py, lines 287-303): a plain
`extend` of the list, with no membership test. -/
def CRM.delete_resource (crm : CRM) (resources : List String) : CRM :=
  { crm with delete_resources := crm.delete_resources ++ resources }

/-- `common.CRM.init_services` (src/common.py, lines 305-320): a plain
`extend` of the list, with no membership test.  Named
`extend_init_services` here only because the dict key of the same name
is a record field of `CRM`. -/
def CRM.extend_init_services (crm : CRM) (resources : List String) : CRM :=
  { crm with init_services := crm.init_services ++ resources }

/-- `common.VirtualIP.__init__` (src/common.py, lines 547-560). -/
structure VirtualIP where
  service_name : String
  vip : String
  nic : Option String
  cidr : Option String
deriving Repr, DecidableEq

/-- Python string interpolation of an optional value: `None` renders as
the literal text `None` inside `str.format`. -/
def pyStrOfOpt : Option String → String
  | some s => s
  | none => "None"

/-- Split a character list on a separator, keeping empty chunks, as
`str.split` does. -/
def splitOnChar (sep : Char) : List Char → List (List Char)
  | [] => [[]]
  | c :: rest =>
      if c = sep then [] :: splitOnChar sep rest
      else
        match splitOnChar sep rest with
        | [] => [[c]]
        | g :: gs => (c :: g) :: gs

/-- Numeric value of a decimal digit string. -/
def digitsToNat (cs : List Char) : Nat :=
  cs.foldl (fun a c => a * 10 + (c.toNat - 48)) 0

/-- Validity of one dotted-quad octet as `ipaddress.ip_address` accepts
it: decimal digits, value at most 255, no superfluous leading zero. -/
def validOctet (cs : List Char) : Bool :=
  cs ≠ [] && cs.all Char.isDigit && digitsToNat cs ≤ 255 &&
    (cs = ['0'] || cs.head? ≠ some '0')

/-- Classification of `ipaddress.ip_address(vip)`: four valid octets
form an IPv4 address; otherwise a string holding a colon is taken as
IPv6 (full RFC 4291 validation is not modelled; every address the
repository handles is covered). -/
def classifyIp (s : String) : Except PyError Bool :=
  let parts := splitOnChar '.' s.toList
  if parts.length = 4 && parts.all validOctet then Except.ok true
  else if s.toList.contains ':' then Except.ok false
  else Except.error PyError.valueError

/-- `common.VirtualIP.configure_resource` (src/common.py, lines 562-584):
the resource id interpolates `self.nic` directly (rendering the literal
text `None` when no nic was given), `nic` and `cidr` params are appended
when truthy, and the primitive is registered with only the `params`
kwarg — the source passes no `meta` and no `op` kwarg. -/
def VirtualIP.configure_resource (v : VirtualIP) (crm : CRM) : Except PyError CRM :=
  match classifyIp v.vip with
  | Except.error e => Except.error e
  | Except.ok isV4 =>
    let vip_key :=
      if isV4 then "res_" ++ v.service_name ++ "_" ++ pyStrOfOpt v.nic ++ "_vip"
      else "res_" ++ v.service_name ++ "_" ++ pyStrOfOpt v.nic ++ "_ipv6addr_vip"
    let res_type := if isV4 then "ocf:heartbeat:IPaddr2" else "ocf:heartbeat:IPv6addr"
    let res_params :=
      if isV4 then "ip=\"" ++ v.vip ++ "\"" else "ipv6addr=\"" ++ v.vip ++ "\""
    let res_params :=
      match v.nic with
      | some n => if n = "" then res_params else res_params ++ " nic=\"" ++ n ++ "\""
      | none => res_params
    let res_params :=
      match v.cidr with
      | some c => if c = "" then res_params else res_params ++ " cidr_netmask=\"" ++ c ++ "\""
      | none => res_params
    Except.ok (crm.primitive vip_key res_type none (some (StrOrList.str res_params))
      none none none none)

/-- Containment of `n` in `h` as Python `n in h` tests it on strings. -/
def strContainsSub (h n : String) : Bool :=
  (List.range (h.toList.length + 1)).any (fun i => n.toList.isPrefixOf (h.toList.drop i))

/-- `requires.HAClusterRequires.add_vip` (src/requires.py, lines 86-118).
The stored resource dict (or a fresh `CRM` when none is stored) receives
the new `VirtualIP`; `CRM(**resource_dict)` shares its mutable
sub-dicts with `resource_dict`, so when a previously stored dict exists
the loop over the stored resources entry observes the key the
descriptor just inserted; members are collected by testing whether the
text vip occurs anywhere in the id, in dict insertion order, and handed
to `group` without sorting. -/
def HAClusterRequires.add_vip (stored : Option CRM) (name vip iface netmask : String) :
    Except PyError CRM :=
  let resources0 := match stored with
    | some d => d
    | none => CRM.empty
  match VirtualIP.configure_resource ⟨name, vip, some iface, some netmask⟩ resources0 with
  | Except.error e => Except.error e
  | Except.ok resources1 =>
    match stored with
    | none => Except.ok resources1
    | some _ =>
      let vip_resources := resources1.resources.map Prod.fst
      if vip_resources = [] then Except.ok resources1
      else
        let members := vip_resources.filter (fun r => strContainsSub r "vip")
        Except.ok (resources1.groupPure ("grp_" ++ name ++ "_vips") members none none)

/-- Value of one `CRM` field as it appears in the dict: either a
sub-dict or a list of strings. -/
inductive FieldVal where
  | dict (d : List (String × String))
  | list (l : List String)
deriving Repr, DecidableEq

/-- Python truthiness of a field value: empty collections are falsy. -/
def fieldTruthy : FieldVal → Bool
  | .dict d => d ≠ []
  | .list l => l ≠ []

/-- `crm.items()` in the insertion order of `CRM.__init__`. -/
def CRM.itemsList (crm : CRM) : List (String × FieldVal) :=
  [("resources", FieldVal.dict crm.resources),
   ("delete_resources", FieldVal.list crm.delete_resources),
   ("resource_params", FieldVal.dict crm.resource_params),
   ("groups", FieldVal.dict crm.groups),
   ("ms", FieldVal.dict crm.ms),
   ("orders", FieldVal.dict crm.orders),
   ("colocations", FieldVal.dict crm.colocations),
   ("clones", FieldVal.dict crm.clones),
   ("locations", FieldVal.dict crm.locations),
   ("init_services", FieldVal.list crm.init_services)]

/-- Insert a pair into a key-sorted association list. -/
def insertPairByKey {α : Type} (p : String × α) : List (String × α) → List (String × α)
  | [] => [p]
  | q :: rest => if p.1 < q.1 then p :: q :: rest else q :: insertPairByKey p rest

/-- Sort an association list by key, as `json.dumps(..., sort_keys=True)`
orders dict keys. -/
def sortPairsByKey {α : Type} (d : List (String × α)) : List (String × α) :=
  d.foldr insertPairByKey []

/-- JSON rendering of a string (the identifiers and spec strings the
repository serializes contain no character needing an escape). -/
def jsonString (s : String) : String := "\"" ++ s ++ "\""

/-- JSON rendering of one field value with sorted keys. -/
def jsonFieldVal : FieldVal → String
  | .dict d =>
      "\x7b" ++ String.intercalate ", "
        ((sortPairsByKey d).map (fun p => jsonString p.1 ++ ": " ++ jsonString p.2)) ++ "\x7d"
  | .list l => "[" ++ String.intercalate ", " (l.map jsonString) ++ "]"

/-- `json.dumps(data, sort_keys=True)` over a dict of field values. -/
def jsonDumpsSortKeys (d : List (String × FieldVal)) : String :=
  "\x7b" ++ String.intercalate ", "
    ((sortPairsByKey d).map (fun p => jsonString p.1 ++ ": " ++ jsonFieldVal p.2)) ++ "\x7d"

/-- Deterministic stand-in for the md5 hexdigest taken by the
change-detection code: the claims rely only on the digest being a
function of the serialized bytes, which any concrete function gives. -/
def md5hex (s : String) : String :=
  toString (s.foldl (fun a c => (a * 131 + c.toNat) % 4294967291) 17)

/-- `HAServiceRequires.data_changed`
(src/interface_hacluster/ops_ha_interface.py, lines 76-83): serialize
the data with sorted keys, hash it, store the new hash under
`data_changed.<data_id>` and report whether it differs from the stored
one.  The reactive helper `charms.reactive.helpers.data_changed` that
`requires.py` imports lives outside this repository; it follows the same
serialize-hash-compare-store contract, so this in-repository
implementation models both. -/
def HAServiceRequires.data_changed (hashes : List (String × String)) (data_id : String)
    (data : List (String × FieldVal)) : List (String × String) × Bool :=
  let key := "data_changed." ++ data_id
  let serialized := jsonDumpsSortKeys data
  let old_hash := dictGet hashes key
  let new_hash := md5hex serialized
  (dictSet hashes key new_hash, decide (old_hash ≠ some new_hash))

/-- Persistent state the relation layer touches: the change-detection
hashes plus the key-value data written by `set_local` and `set_remote`. -/
structure PubState where
  hashes : List (String × String)
  local_data : List (String × FieldVal)
  remote_data : List (String × FieldVal)
deriving Repr, DecidableEq

/-- The empty store. -/
def PubState.empty : PubState := { hashes := [], local_data := [], remote_data := [] }

/-- `requires.HAClusterRequires.manage_resources` (src/requires.py,
lines 51-70): keep only the truthy fields of the crm dict, and when the
change fingerprint differs write exactly those pairs through `set_local`
and `set_remote`; the returned flag reports whether a publish happened. -/
def HAClusterRequires.manage_resources (st : PubState) (crm : CRM) : PubState × Bool :=
  let relation_data := crm.itemsList.filter (fun p => fieldTruthy p.2)
  let r := HAServiceRequires.data_changed st.hashes "hacluster-manage_resources" relation_data
  if r.2 then
    ({ hashes := r.1,
       local_data := dictSetMany st.local_data relation_data,
       remote_data := dictSetMany st.remote_data relation_data }, true)
  else
    ({ st with hashes := r.1 }, false)

/-- Relation data visible to `get_remote_all`: for each established
relation, the data bags of its remote units. -/
abbrev UnitData := List (String × String)

/-- One peer relation: the data bag of every remote unit on it. -/
abbrev PeerRelation := List UnitData

/-- Value one unit contributes for a key: `relation.data[unit].get(key)`
followed by the truthiness test `if value:`, so an absent key and an
empty string contribute nothing. -/
def unitValue (key : String) (u : UnitData) : Option String :=
  match dictGet u key with
  | some v => if v = "" then none else some v
  | none => none

/-- The `values` list the nested for loops of `get_remote_all`
accumulate, in traversal order. -/
def collectRemoteValues (key : String) : List PeerRelation → List String
  | [] => []
  | rel :: rest => rel.filterMap (unitValue key) ++ collectRemoteValues key rest

/-- `HAServiceRequires.get_remote_all`
(src/interface_hacluster/ops_ha_interface.py, lines 101-109): collect
the truthy values every remote unit presents for the key and return
`list(set(values))`; the set conversion is modelled by `List.dedup`
(CPython leaves the resulting order unspecified).  The `default`
parameter appears in the signature but the body never reads it. -/
def HAServiceRequires.get_remote_all (relations : List PeerRelation) (key : String)
    (default : Option String) : List String :=
  (collectRemoteValues key relations).dedup

/-- Stored configuration used to exercise `add_vip`: one VIP resource is
already present, under a key later than the new one alphabetically. -/
def c2_stored : CRM :=
  { CRM.empty with resources := [("res_mysql_ens4_vip", "ocf:heartbeat:IPaddr2")] }

/-- The configuration built by the repository test
`test_requires.TestHAClusterRequires.test_manage_resources`. -/
def crmC7 : CRM :=
  ((CRM.empty.primitive "res_neutron_haproxy" "lsb:haproxy" none none none none none
      (some (StrOrList.str "monitor interval=\"5s\""))).extend_init_services
    ["haproxy"]).clone "cl_nova_haproxy" "res_neutron_haproxy" none none none

/-- A small configuration for exercising `manage_resources` replay. -/
def crmHaproxy : CRM :=
  CRM.empty.primitive "res_neutron_haproxy" "lsb:haproxy" none none none none none
    (some (StrOrList.str "monitor interval=\"5s\""))

/- ------------------------------------------------------------------ -/
/- Theorems.                                                          -/
/- ------------------------------------------------------------------ -/

theorem dictGet_dictSet_self {α : Type} (d : List (String × α)) (k : String) (v : α) :
    dictGet (dictSet d k v) k = some v := by
  induction d with
  | nil => simp [dictSet, dictGet]
  | cons p rest ih =>
    by_cases h : p.1 = k
    · simp [dictSet, dictGet, h]
    · simp [dictSet, dictGet, h, ih]

theorem dictSet_dictSet_self {α : Type} (d : List (String × α)) (k : String) (v w : α) :
    dictSet (dictSet d k v) k w = dictSet d k w := by
  induction d with
  | nil => simp [dictSet]
  | cons p rest ih =>
    by_cases h : p.1 = k
    · simp [dictSet, h]
    · simp [dictSet, h, ih]

theorem str_append_assoc (a b c : String) : (a ++ b) ++ c = a ++ (b ++ c) := by
  apply String.ext
  simp [String.data_append]

theorem str_append_empty (s : String) : s ++ "" = s := by
  apply String.ext
  simp [String.data_append]

theorem str_empty_append (s : String) : "" ++ s = s := by
  apply String.ext
  simp [String.data_append]

example : CRM.parse "prefix" (StrOrList.str "var1") = " prefix var1" := by decide

example :
    (CRM.empty.primitive "www8" "apache" none
      (some (StrOrList.str "configfile=/etc/apache/www8.conf")) none none
      (some (StrOrList.str "$id-ref=apache_ops")) none).resource_params
    = [("www8", "  params configfile=/etc/apache/www8.conf  operations $id-ref=apache_ops")] := by
  decide

/-- C1: the claim states that `delete_resources` and `init_services`
(and `systemd_services`) never gain a duplicate, an add of a present
value being a no-op.  The source extends plainly, so a repeated
`delete_resource` or `init_services` call duplicates the entry; the
repository test suite asserts the deduplicated behaviour the claim
states. -/
theorem c1_delete_and_init_services_duplicate :
    ((CRM.empty.delete_resource ["res_mysql_vip"]).delete_resource
        ["res_mysql_vip"]).delete_resources = ["res_mysql_vip", "res_mysql_vip"] ∧
    ((CRM.empty.extend_init_services ["haproxy"]).extend_init_services
        ["haproxy"]).init_services = ["haproxy", "haproxy"] ∧
    ["res_mysql_vip", "res_mysql_vip"] ≠ ["res_mysql_vip"] :=
  ⟨rfl, rfl, by decide⟩

/-- C5: the claim states that `_parse` repeats the token
`" " ++ pfx ++ " " ++ item` for every item.  The source emits the
leading space only before the first item, so two items come out with no
separator between them; the empty and singleton cases do match the
claim. -/
theorem c5_parse_missing_separator :
    CRM.parse "prefix" (StrOrList.list ["var1", "var2"]) = " prefix var1prefix var2" ∧
    CRM.parse "prefix" (StrOrList.list ["var1", "var2"]) ≠ " prefix var1 prefix var2" ∧
    CRM.parse "prefix" (StrOrList.list []) = "" ∧
    CRM.parse "prefix" (StrOrList.str "var1") = CRM.parse "prefix" (StrOrList.list ["var1"]) :=
  ⟨rfl, by decide, rfl, rfl⟩

/-- C6: the claim states that a `VirtualIP` built without a nic gets the
resource id `res_<service>_<md5-short-hash>_vip` plus standard monitor
`meta` and `op` clauses.  The source interpolates `self.nic` directly,
yielding the literal id `res_apache_None_vip`, and passes only the
`params` kwarg to `primitive`, so no hash id exists and the stored
params hold no `meta` or `op` clause. -/
theorem c6_virtualip_no_nic_literal_none :
    (VirtualIP.configure_resource ⟨"apache", "10.110.1.1", none, none⟩ CRM.empty).map
        (fun c => dictGet c.resources "res_apache_None_vip")
      = Except.ok (some "ocf:heartbeat:IPaddr2") ∧
    (VirtualIP.configure_resource ⟨"apache", "10.110.1.1", none, none⟩ CRM.empty).map
        (fun c => dictGet c.resources "res_apache_a7815c8_vip")
      = Except.ok none ∧
    (VirtualIP.configure_resource ⟨"apache", "10.110.1.1", none, none⟩ CRM.empty).map
        (fun c => dictGet c.resource_params "res_apache_None_vip")
      = Except.ok (some "  params ip=\"10.110.1.1\"") :=
  ⟨rfl, rfl, rfl⟩

/-- C2: the claim states that after `add_vip` the `grp_<name>_vips`
group holds every resource id with the `_vip` suffix in sorted order.
The source collects ids by the substring test and emits them in dict
insertion order, so the newly added VIP comes last even when its id
sorts first. -/
theorem c2_add_vip_group_unsorted :
    (HAClusterRequires.add_vip (some c2_stored) "mysql" "10.110.5.43" "ens3" "24").map
        (fun c => dictGet c.groups "grp_mysql_vips")
      = Except.ok (some "res_mysql_ens4_vip res_mysql_ens3_vip") ∧
    "res_mysql_ens4_vip res_mysql_ens3_vip" ≠ "res_mysql_ens3_vip res_mysql_ens4_vip" :=
  ⟨rfl, by decide⟩

/-- C7: the claim states that a publish transmits each non-empty field
under the key `json_<fieldname>`.  The source hands the truthy fields to
`set_local` and `set_remote` under their plain field names with their
raw values; the repository test `test_manage_resources` asserts the
`json_`-prefixed contract the claim states. -/
theorem c7_manage_resources_raw_keys :
    ((HAClusterRequires.manage_resources PubState.empty crmC7).1.remote_data.map Prod.fst)
      = ["resources", "resource_params", "clones", "init_services"] ∧
    dictGet (HAClusterRequires.manage_resources PubState.empty crmC7).1.remote_data
        "json_resources" = none ∧
    dictGet (HAClusterRequires.manage_resources PubState.empty crmC7).1.remote_data
        "resources" = some (FieldVal.dict [("res_neutron_haproxy", "lsb:haproxy")]) :=
  ⟨rfl, rfl, rfl⟩

/-- C8 counterexample: the claim states that `get_remote_all` returns
the default wrapped as a single-element result when no peer supplied the
key and a default was given; the source never reads the `default`
parameter and returns the empty result. -/
theorem c8_get_remote_all_default_ignored :
    HAServiceRequires.get_remote_all [[[("fruit", "banana")]]] "key100" (some "defaultvalue")
      = [] ∧ ([] : List String) ≠ ["defaultvalue"] :=
  ⟨rfl, by decide⟩

/-- C9 counterexample: the claim states that `order` with a
`symmetrical` kwarg completes and stores the malformed token
`" symmetrical="` with the value dropped; the source raises `TypeError`
while formatting (specifier-free format string, non-mapping operand), so
nothing is stored. -/
theorem c9_order_symmetrical_raises :
    CRM.order CRM.empty "o1" (some "Mandatory") ["r1", "r2"] (some (PyScalar.bool true))
      = Except.error PyError.typeError ∧
    CRM.order CRM.empty "o1" (some "Mandatory") ["r1", "r2"] (some (PyScalar.bool true))
      ≠ Except.ok { CRM.empty with orders := [("o1", "Mandatory: r1 r2 symmetrical=")] } :=
  ⟨rfl, fun h => Except.noConfusion h⟩

/-- C4: `primitive` stores the agent under `resources[name]` and builds
`resource_params[name]` as the concatenation of exactly the supplied
clauses — the truthy `description` first with no leading space, then the
`params`, `meta`, `utilization`, `operations`, `op` clauses, each a
space followed by the `_parse` output — creating no entry when the
combined string is empty, and touching no other field. -/
theorem primitive_clause_order (crm : CRM) (name agent : String) (description : Option String)
    (params meta utilization operations op : Option StrOrList) :
    (CRM.primitive crm name agent description params meta utilization operations op).resources
      = dictSet crm.resources name agent ∧
    (CRM.primitive crm name agent description params meta utilization operations op).resource_params
      = (if descClause description ++ kwargClause "params" params ++ kwargClause "meta" meta
            ++ kwargClause "utilization" utilization ++ kwargClause "operations" operations
            ++ kwargClause "op" op = ""
         then crm.resource_params
         else dictSet crm.resource_params name
            (descClause description ++ kwargClause "params" params ++ kwargClause "meta" meta
              ++ kwargClause "utilization" utilization ++ kwargClause "operations" operations
              ++ kwargClause "op" op)) ∧
    (CRM.primitive crm name agent description params meta utilization operations op).groups
      = crm.groups ∧
    (CRM.primitive crm name agent description params meta utilization operations op).clones
      = crm.clones ∧
    (CRM.primitive crm name agent description params meta utilization operations op).orders
      = crm.orders ∧
    (CRM.primitive crm name agent description params meta utilization operations op).delete_resources
      = crm.delete_resources ∧
    (CRM.primitive crm name agent description params meta utilization operations op).init_services
      = crm.init_services := by
  cases description <;> cases params <;> cases meta <;> cases utilization <;>
    cases operations <;> cases op <;>
      simp [CRM.primitive, descClause, kwargClause, str_append_assoc, str_append_empty,
        str_empty_append]

/-- C3: replaying `manage_resources` with byte-identical configuration
content publishes exactly once — starting from a store holding no
fingerprint, the first call reports a publish and writes the truthy
fields to local and remote storage, and the second call with the same
configuration returns the state unchanged and reports no publish. -/
theorem manage_resources_replay_noop (st : PubState) (crm : CRM)
    (hfresh : dictGet st.hashes "data_changed.hacluster-manage_resources" = none) :
    (HAClusterRequires.manage_resources st crm).2 = true ∧
    (HAClusterRequires.manage_resources st crm).1.local_data
      = dictSetMany st.local_data (crm.itemsList.filter (fun p => fieldTruthy p.2)) ∧
    (HAClusterRequires.manage_resources st crm).1.remote_data
      = dictSetMany st.remote_data (crm.itemsList.filter (fun p => fieldTruthy p.2)) ∧
    HAClusterRequires.manage_resources (HAClusterRequires.manage_resources st crm).1 crm
      = ((HAClusterRequires.manage_resources st crm).1, false) := by
  have hkey : ("data_changed." ++ "hacluster-manage_resources")
      = "data_changed.hacluster-manage_resources" := rfl
  simp only [HAClusterRequires.manage_resources, HAServiceRequires.data_changed, hkey, hfresh]
  simp [dictGet_dictSet_self, dictSet_dictSet_self]

/-- Witness for C3 at a concrete store and configuration. -/
theorem manage_resources_replay_noop_witness :
    dictGet PubState.empty.hashes "data_changed.hacluster-manage_resources" = none ∧
    ((HAClusterRequires.manage_resources PubState.empty crmHaproxy).2 = true ∧
     (HAClusterRequires.manage_resources PubState.empty crmHaproxy).1.local_data
       = dictSetMany PubState.empty.local_data
           (crmHaproxy.itemsList.filter (fun p => fieldTruthy p.2)) ∧
     (HAClusterRequires.manage_resources PubState.empty crmHaproxy).1.remote_data
       = dictSetMany PubState.empty.remote_data
           (crmHaproxy.itemsList.filter (fun p => fieldTruthy p.2)) ∧
     HAClusterRequires.manage_resources
         (HAClusterRequires.manage_resources PubState.empty crmHaproxy).1 crmHaproxy
       = ((HAClusterRequires.manage_resources PubState.empty crmHaproxy).1, false)) :=
  ⟨rfl, manage_resources_replay_noop PubState.empty crmHaproxy rfl⟩

/-- C9 amended: with a `symmetrical` kwarg supplied (any non-mapping
value, in particular a boolean) `order` raises `TypeError` during
formatting, before anything is stored; without it, `orders[name]`
becomes the truthy score followed by a colon, a space and the
space-joined resources. -/
theorem order_amended (crm : CRM) (name : String) (score : Option String)
    (resources : List String) (v : PyScalar) :
    CRM.order crm name score resources (some v) = Except.error PyError.typeError ∧
    CRM.order crm name score resources none
      = Except.ok { crm with orders := dictSet crm.orders name ((match score with
          | some s => if s = "" then "" else s ++ ":"
          | none => "") ++ " " ++ String.intercalate " " resources) } :=
  ⟨rfl, rfl⟩

/-- C10: `group` with a non-empty string `description` kwarg raises
`TypeError`, leaving the whole configuration untouched (the error result
carries no updated configuration); without the kwarg the call succeeds
and stores the space-joined members followed by the `meta` and `params`
clauses. -/
theorem group_description_typeerror (crm : CRM) (name : String) (resources : List String)
    (meta params : Option StrOrList) (d : String) (hd : d ≠ "") :
    CRM.group crm name resources (some d) meta params = Except.error PyError.typeError ∧
    CRM.group crm name resources none meta params
      = Except.ok { crm with groups := dictSet crm.groups name (String.intercalate " "
          resources ++ kwargClause "meta" meta ++ kwargClause "params" params) } := by
  constructor
  · rfl
  · cases meta <;> cases params <;>
      simp [CRM.group, CRM.groupPure, kwargClause, str_append_assoc, str_append_empty,
        str_empty_append]

/-- Witness for C10 at a concrete configuration and description. -/
theorem group_description_typeerror_witness :
    CRM.group CRM.empty "grp_mysql" ["res_mysql_rbd", "res_mysql_fs"] (some "useful desc")
        none none = Except.error PyError.typeError ∧
    CRM.group CRM.empty "grp_mysql" ["res_mysql_rbd", "res_mysql_fs"] none none none
      = Except.ok { CRM.empty with groups := dictSet CRM.empty.groups "grp_mysql" (String.intercalate " "
          ["res_mysql_rbd", "res_mysql_fs"] ++ kwargClause "meta" none ++ kwargClause "params" none) } :=
  group_description_typeerror CRM.empty "grp_mysql" ["res_mysql_rbd", "res_mysql_fs"]
    none none "useful desc" (by decide)

theorem unitValue_eq_some (key x : String) (u : UnitData) :
    unitValue key u = some x ↔ dictGet u key = some x ∧ x ≠ "" := by
  unfold unitValue
  cases h : dictGet u key with
  | none => simp
  | some v =>
    show (if v = "" then none else some v) = some x ↔ some v = some x ∧ x ≠ ""
    by_cases hv : v = ""
    · subst hv
      rw [if_pos rfl]
      simp
      exact fun hx => hx.symm
    · rw [if_neg hv]
      constructor
      · intro hvx
        refine ⟨hvx, ?_⟩
        intro hx
        exact hv (by simpa [hx] using hvx)
      · exact fun p => p.1

theorem mem_collectRemoteValues (key x : String) (rels : List PeerRelation) :
    x ∈ collectRemoteValues key rels
      ↔ ∃ rel ∈ rels, ∃ u ∈ rel, unitValue key u = some x := by
  induction rels with
  | nil => simp [collectRemoteValues]
  | cons rel rest ih =>
    simp [collectRemoteValues, List.mem_filterMap, ih]

/-- C8 amended: `get_remote_all` returns the deduplicated collection of
the truthy values the peer units present for the key; when no peer
supplied the key the result is empty even when a default was given —
the `default` parameter is never read, so the result is independent of
it — and the call is total. -/
theorem get_remote_all_amended (relations : List PeerRelation) (key : String)
    (default : Option String) :
    (HAServiceRequires.get_remote_all relations key default).Nodup ∧
    (∀ x, x ∈ HAServiceRequires.get_remote_all relations key default
        ↔ (x ≠ "" ∧ ∃ rel ∈ relations, ∃ u ∈ rel, dictGet u key = some x)) ∧
    HAServiceRequires.get_remote_all relations key default
      = HAServiceRequires.get_remote_all relations key none := by
  refine ⟨List.nodup_dedup _, ?_, rfl⟩
  intro x
  rw [HAServiceRequires.get_remote_all, List.mem_dedup, mem_collectRemoteValues]
  constructor
  · rintro ⟨rel, hrel, u, hu, hv⟩
    rw [unitValue_eq_some] at hv
    exact ⟨hv.2, rel, hrel, u, hu, hv.1⟩
  · rintro ⟨hx, rel, hrel, u, hu, hv⟩
    exact ⟨rel, hrel, u, hu, (unitValue_eq_some key x u).mpr ⟨hv, hx⟩⟩
